import Mathlib

/-!
Shallow embedding of the fraud-detection pipeline of the
Finanicial_Fraud_Detection repository: `FraudDetector.preprocess`,
`FraudDetector.generate_explanations` and `FraudDetector.predict` in
`model.py`.

Numeric cell values are modelled as rationals.  The fitted
`IsolationForest` and the SHAP explainer are external library objects;
they enter the embedding as parameters (the batch's decision-function
values, and the per-row SHAP contribution vectors), while everything the
repository's own code computes from them is embedded faithfully.
-/

/-- Error taxonomy of the pipeline that the embedded code can raise: a
missing required input column (pandas raises a `KeyError` there; the
design taxonomy calls it a `DataError`). -/
inductive PipelineError where
  | DataError
deriving DecidableEq

/-- An input table: an association list from column names to columns of
numeric values (one entry per row, all columns the same length in a
well-formed table). -/
def InputTable : Type := List (String × List ℚ)

/-- Column access `df[c]`: a missing required column fails the run. -/
def getCol (t : InputTable) (c : String) : Except PipelineError (List ℚ) :=
  match List.lookup c t with
  | some v => Except.ok v
  | none => Except.error PipelineError.DataError

/-- Category codes, as pandas `astype('category').cat.codes` assigns
them: each value is replaced by its rank among the column's distinct
values in ascending order. -/
def catCodes (col : List ℚ) : List ℚ :=
  col.map (fun v => ((col.dedup.filter (fun w => decide (w < v))).length : ℚ))

/-- Fixed feature order of `preprocess` (`self.feature_cols`). -/
def feature_cols : List String :=
  ["TransactionAmount", "TransactionType", "Location", "Channel", "DeviceID",
   "MerchantID", "CustomerAge", "CustomerOccupation", "TransactionDuration",
   "LoginAttempts", "AccountBalance", "TimeDiff"]

/-- Embedding of `FraudDetector.preprocess` (model.py lines 14-35): it
computes `TimeDiff` as the difference of the two timestamp columns
(timestamps modelled as seconds), encodes the six categorical columns as
category codes, and assembles the feature matrix with columns in
`feature_cols` order; each column is fetched in the order the source
accesses it, and a missing column fails with `DataError`, as `df[...]`
raises.  Not modelled: `fillna(0)` (cells are total rationals here) and
the final `StandardScaler` standardisation (its irrational scale factors
leave ℚ; no claim depends on the standardised values, which only feed
the external model). -/
def preprocess (t : InputTable) : Except PipelineError (List (List ℚ)) := do
  let td ← getCol t "TransactionDate"
  let ptd ← getCol t "PreviousTransactionDate"
  let timeDiff := List.zipWith (fun a b => a - b) td ptd
  let tt ← getCol t "TransactionType"
  let ch ← getCol t "Channel"
  let loc ← getCol t "Location"
  let dev ← getCol t "DeviceID"
  let mer ← getCol t "MerchantID"
  let occ ← getCol t "CustomerOccupation"
  let amt ← getCol t "TransactionAmount"
  let age ← getCol t "CustomerAge"
  let dur ← getCol t "TransactionDuration"
  let login ← getCol t "LoginAttempts"
  let bal ← getCol t "AccountBalance"
  Except.ok ((List.range amt.length).map (fun i =>
    [amt.getD i 0, (catCodes tt).getD i 0, (catCodes loc).getD i 0,
     (catCodes ch).getD i 0, (catCodes dev).getD i 0, (catCodes mer).getD i 0,
     age.getD i 0, (catCodes occ).getD i 0, dur.getD i 0,
     login.getD i 0, bal.getD i 0, timeDiff.getD i 0]))

/-- Outlier decision of the fitted `IsolationForest`, modelled from the
sklearn contract: `predict` returns −1 exactly where `decision_function`
is negative and 1 elsewhere.  `scores` are the batch's decision-function
values. -/
def ifPredict (scores : List ℚ) : List Int :=
  scores.map (fun s => if s < 0 then -1 else 1)

/-- AnomalyScore column of the result table (model.py line 109): the code
stores the `predict` output `preds` there, not `scores`. -/
def anomalyScoreCol (scores : List ℚ) : List Int :=
  ifPredict scores

/-- IsFraud column (line 110): 1 where AnomalyScore equals −1, else 0. -/
def isFraudCol (scores : List ℚ) : List Nat :=
  (anomalyScoreCol scores).map (fun x => if x = -1 then 1 else 0)

/-- `scores.min()` of a batch (the empty batch never reaches this point). -/
def scoreMin (scores : List ℚ) : ℚ :=
  match scores with
  | [] => 0
  | s :: rest => rest.foldl min s

/-- `scores.max()` of a batch. -/
def scoreMax (scores : List ℚ) : ℚ :=
  match scores with
  | [] => 0
  | s :: rest => rest.foldl max s

/-- FraudProbability column (lines 112-114):
`1 - (scores - score_min) / (score_max - score_min)`.  When all scores
are equal, the numpy expression divides zero by zero, an undefined value
(floating-point NaN); the embedding returns `none` for such a batch. -/
def fraudProbability (scores : List ℚ) : Option (List ℚ) :=
  if scoreMax scores = scoreMin scores then none
  else some (scores.map (fun s =>
    1 - (s - scoreMin scores) / (scoreMax scores - scoreMin scores)))

/-- Flagged row positions (line 116): `df[df['IsFraud'] == 1].index`,
positional because the frame keeps its default range index. -/
def fraudIndices (scores : List ℚ) : List Nat :=
  (List.range scores.length).filter (fun i => (isFraudCol scores).getD i 0 == 1)

/-- FraudExplanation column (lines 121-124): every row starts as the
empty string, then the k-th flagged row receives the k-th explanation. -/
def fraudExplanationCol (scores : List ℚ) (expls : List String) : List String :=
  (List.range scores.length).map (fun i =>
    if (fraudIndices scores).contains i then
      expls.getD ((fraudIndices scores).indexOf i) ""
    else "")

/-- The `friendly_names` dictionary together with its `.get` fallback. -/
def friendly_names (feature : String) : String :=
  if feature = "TransactionAmount" then "Transaction amount was high"
  else if feature = "LoginAttempts" then "Unusual number of login attempts"
  else if feature = "AccountBalance" then "Account balance was low"
  else if feature = "TransactionDuration" then "Transaction took unusually long"
  else if feature = "TimeDiff" then "Short time since previous transaction"
  else if feature = "CustomerAge" then "Customer age was uncommon for such activity"
  else if feature = "Channel" then "Unusual channel used"
  else if feature = "Location" then "Suspicious location detected"
  else if feature = "CustomerOccupation" then "Uncommon occupation for this transaction type"
  else if feature = "DeviceID" then "Unfamiliar device used"
  else if feature = "MerchantID" then "Unrecognized merchant"
  else if feature = "TransactionType" then "Unusual transaction type"
  else feature ++ " was unusual"

/-- The `risk_flags` dictionary: severity classifiers on raw feature
values, `none` for features without a classifier. -/
def risk_flags (feature : String) (val : ℚ) : Option String :=
  if feature = "TransactionAmount" then
    some (if val > 100000 then "very high"
          else if val > 50000 then "high" else "moderate")
  else if feature = "AccountBalance" then
    some (if val < 1000 then "very low"
          else if val < 5000 then "low" else "sufficient")
  else if feature = "LoginAttempts" then
    some (if val ≥ 3 then "multiple failed" else "normal")
  else if feature = "TimeDiff" then
    some (if val < 60 then "immediately after previous"
          else if val < 300 then "short interval" else "normal delay")
  else none

/-- Insertion step of a stable ascending sort of indices by key: the new
index goes after every already-placed index whose key is ≤ its own. -/
def insertIdxAsc (w : Nat → ℚ) (i : Nat) : List Nat → List Nat
  | [] => [i]
  | j :: rest =>
    if w i < w j then i :: j :: rest else j :: insertIdxAsc w i rest

/-- numpy `argsort` over a list of keys: the indices sorted by ascending
key.  Ties keep the original index order, matching the stable
insertion-sort numpy uses on the short per-row arrays sorted here. -/
def argsort (keys : List ℚ) : List Nat :=
  (List.range keys.length).foldl
    (fun acc i => insertIdxAsc (fun k => keys.getD k 0) i acc) []

/-- Line 68: `abs(row_values).argsort()[::-1][:top_n]`. -/
def topIndices (row_values : List ℚ) (top_n : Nat) : List Nat :=
  ((argsort (row_values.map (fun x => |x|))).reverse).take top_n

/-- Body of the bullet loop (lines 72-85) for one index of the top list:
feature name, raw value looked up by name in the given row, impact sign,
friendly phrase, optional severity qualifier, final HTML bullet. -/
def bulletFor (row_values row_data : List ℚ) (idx : Nat) : String :=
  let feature := feature_cols.getD idx ""
  let val := row_data.getD (feature_cols.indexOf feature) 0
  let impact := row_values.getD idx 0
  let direction := if impact > 0 then "increased" else "reduced"
  let description := friendly_names feature
  let risk_level :=
    match risk_flags feature val with
    | some flag => " (" ++ flag ++ ")"
    | none => ""
  "<li style=\x27color:#e63946\x27><b>" ++ description ++ risk_level ++
    "</b> → " ++ direction ++ " fraud risk.</li>"

/-- The bullet list built for one row (lines 70-85). -/
def bulletsFor (row_values row_data : List ℚ) (top_n : Nat) : List String :=
  (topIndices row_values top_n).map (bulletFor row_values row_data)

/-- The `detailed_text` block (lines 87-91) for one row. -/
def explanationFor (row_values row_data : List ℚ) (top_n : Nat) : String :=
  "\n            <div style=\x27color:#333;\x27>\n            <p><strong>The model flagged this transaction as fraudulent based on the following factors:</strong></p>\n            <ul>\n            "
    ++ String.intercalate "\n" (bulletsFor row_values row_data top_n)
    ++ "\n</ul></div>"

/-- Embedding of `FraudDetector.generate_explanations`: `shapRows` holds
the SHAP contribution vectors for the rows of the matrix `X` passed in
(the flagged subset, when called from `predict`), and `xRaw` is
`self.X_raw`, the raw feature table of the FULL batch.  As in the source
(line 67), the loop position into `shapRows` is also the position used
to index `xRaw`. -/
def generate_explanations (shapRows : List (List ℚ)) (xRaw : List (List ℚ))
    (top_n : Nat) : List String :=
  (List.range shapRows.length).map (fun i =>
    explanationFor (shapRows.getD i []) (xRaw.getD i []) top_n)

/-- The columns `predict` adds to the result table. -/
structure ResultTable where
  anomalyScore : List Int
  isFraud : List Nat
  fraudProb : Option (List ℚ)
  fraudExplanation : List String
deriving DecidableEq

/-- Embedding of `FraudDetector.predict` (lines 103-126).  The fitted
model and the SHAP explainer are external: `decision_function` maps the
feature matrix to the batch's raw scores, and `shapValues` maps the
flagged sub-matrix to its per-row contribution vectors.  Everything else
follows the source; when no row is flagged the explanation column is
all-empty, which `fraudExplanationCol` also yields on an empty flagged
set, so both source branches collapse to one expression here. -/
def predict (t : InputTable)
    (decision_function : List (List ℚ) → List ℚ)
    (shapValues : List (List ℚ) → List (List ℚ)) :
    Except PipelineError ResultTable := do
  let X ← preprocess t
  let scores := decision_function X
  let expls := generate_explanations
    (shapValues ((fraudIndices scores).map (fun i => X.getD i []))) X 3
  Except.ok
    { anomalyScore := anomalyScoreCol scores
      isFraud := isFraudCol scores
      fraudProb := fraudProbability scores
      fraudExplanation := fraudExplanationCol scores expls }

/-- Top-N selection as the design spec words it (spec section 4.4):
descending absolute contribution with ties broken by the original
ascending feature order; realised as a stable insertion that places a
new index before an already-placed one only when its key is strictly
greater.  Written from the spec, to be compared with `topIndices`. -/
def insertIdxDesc (w : Nat → ℚ) (i : Nat) : List Nat → List Nat
  | [] => [i]
  | j :: rest =>
    if w j < w i then i :: j :: rest else j :: insertIdxDesc w i rest

/-- Spec-side top-N list (see `insertIdxDesc`). -/
def specTopIndices (row_values : List ℚ) (top_n : Nat) : List Nat :=
  ((List.range row_values.length).foldl
    (fun acc i => insertIdxDesc (fun k => |row_values.getD k 0|) i acc)
    []).take top_n

/-! ## Helper lemmas -/

theorem exceptBindAll {α β : Type} (r : Except PipelineError α)
    (f : α → Except PipelineError β)
    (h : ∀ a, f a = Except.error PipelineError.DataError) :
    (r >>= f) = Except.error PipelineError.DataError := by
  cases r with
  | error e => cases e; rfl
  | ok a => exact h a

theorem foldl_min_le_init (l : List ℚ) (a : ℚ) : l.foldl min a ≤ a := by
  induction l generalizing a with
  | nil => exact le_refl a
  | cons b t ih =>
    simp only [List.foldl_cons]
    exact (ih (min a b)).trans (min_le_left a b)

theorem foldl_min_le_mem (l : List ℚ) (a x : ℚ) (h : x ∈ l) :
    l.foldl min a ≤ x := by
  induction l generalizing a with
  | nil => cases h
  | cons b t ih =>
    simp only [List.foldl_cons]
    rcases List.mem_cons.mp h with rfl | h
    · exact (foldl_min_le_init t (min a x)).trans (min_le_right a x)
    · exact ih (min a b) h

theorem le_foldl_max_init (l : List ℚ) (a : ℚ) : a ≤ l.foldl max a := by
  induction l generalizing a with
  | nil => exact le_refl a
  | cons b t ih =>
    simp only [List.foldl_cons]
    exact (le_max_left a b).trans (ih (max a b))

theorem le_foldl_max_mem (l : List ℚ) (a x : ℚ) (h : x ∈ l) :
    x ≤ l.foldl max a := by
  induction l generalizing a with
  | nil => cases h
  | cons b t ih =>
    simp only [List.foldl_cons]
    rcases List.mem_cons.mp h with rfl | h
    · exact (le_max_right a x).trans (le_foldl_max_init t (max a x))
    · exact ih (max a b) h

theorem scoreMin_le (scores : List ℚ) (x : ℚ) (hx : x ∈ scores) :
    scoreMin scores ≤ x := by
  cases scores with
  | nil => cases hx
  | cons s rest =>
    rcases List.mem_cons.mp hx with rfl | hx
    · exact foldl_min_le_init rest x
    · exact foldl_min_le_mem rest s x hx

theorem le_scoreMax (scores : List ℚ) (x : ℚ) (hx : x ∈ scores) :
    x ≤ scoreMax scores := by
  cases scores with
  | nil => cases hx
  | cons s rest =>
    rcases List.mem_cons.mp hx with rfl | hx
    · exact le_foldl_max_init rest x
    · exact le_foldl_max_mem rest s x hx

theorem insertIdxAsc_perm (w : Nat → ℚ) (i : Nat) (l : List Nat) :
    List.Perm (insertIdxAsc w i l) (i :: l) := by
  induction l with
  | nil => exact List.Perm.refl _
  | cons j rest ih =>
    by_cases h : w i < w j
    · simp only [insertIdxAsc, if_pos h]
      exact List.Perm.refl _
    · simp only [insertIdxAsc, if_neg h]
      exact (ih.cons j).trans (List.Perm.swap i j rest)

theorem insertIdxAsc_mem (w : Nat → ℚ) (i : Nat) (l : List Nat) (a : Nat) :
    a ∈ insertIdxAsc w i l ↔ a = i ∨ a ∈ l := by
  rw [(insertIdxAsc_perm w i l).mem_iff]
  simp

theorem insertIdxAsc_pairwise (w : Nat → ℚ) (i : Nat) (l : List Nat)
    (hl : l.Pairwise fun a b => w a < w b ∨ (w a = w b ∧ a < b))
    (hb : ∀ j ∈ l, j < i) :
    (insertIdxAsc w i l).Pairwise fun a b => w a < w b ∨ (w a = w b ∧ a < b) := by
  induction l with
  | nil => simp [insertIdxAsc]
  | cons j rest ih =>
    rcases List.pairwise_cons.mp hl with ⟨hjr, hrest⟩
    by_cases h : w i < w j
    · simp only [insertIdxAsc, if_pos h]
      refine List.Pairwise.cons ?_ hl
      intro x hx
      rcases List.mem_cons.mp hx with rfl | hx
      · exact Or.inl h
      · rcases hjr x hx with h2 | ⟨h2, _⟩
        · exact Or.inl (h.trans h2)
        · exact Or.inl (h2 ▸ h)
    · simp only [insertIdxAsc, if_neg h]
      refine List.Pairwise.cons ?_
        (ih hrest (fun a ha => hb a (List.mem_cons_of_mem j ha)))
      intro x hx
      rcases (insertIdxAsc_mem w i rest x).mp hx with rfl | hx
      · rcases lt_or_eq_of_le (not_lt.mp h) with h2 | h2
        · exact Or.inl h2
        · exact Or.inr ⟨h2, hb j (List.mem_cons_self j rest)⟩
      · exact hjr x hx

theorem insertFold_pairwise_perm (w : Nat → ℚ) :
    ∀ (is acc : List Nat),
      acc.Pairwise (fun a b => w a < w b ∨ (w a = w b ∧ a < b)) →
      (∀ j ∈ acc, ∀ i ∈ is, j < i) →
      is.Pairwise (· < ·) →
      (is.foldl (fun a i => insertIdxAsc w i a) acc).Pairwise
          (fun a b => w a < w b ∨ (w a = w b ∧ a < b)) ∧
        List.Perm (is.foldl (fun a i => insertIdxAsc w i a) acc) (acc ++ is)
  | [], acc, hacc, _, _ => ⟨hacc, by simp⟩
  | i :: is, acc, hacc, hb, his => by
    simp only [List.foldl_cons]
    rcases List.pairwise_cons.mp his with ⟨hiis, his'⟩
    have hacc' := insertIdxAsc_pairwise w i acc hacc
      (fun j hj => hb j hj i (List.mem_cons_self i is))
    have hb' : ∀ j ∈ insertIdxAsc w i acc, ∀ k ∈ is, j < k := by
      intro j hj k hk
      rcases (insertIdxAsc_mem w i acc j).mp hj with rfl | hj
      · exact hiis k hk
      · exact hb j hj k (List.mem_cons_of_mem i hk)
    rcases insertFold_pairwise_perm w is (insertIdxAsc w i acc) hacc' hb' his'
      with ⟨h1, h2⟩
    refine ⟨h1, h2.trans ?_⟩
    exact ((insertIdxAsc_perm w i acc).append_right is).trans List.perm_middle.symm

theorem argsort_perm (keys : List ℚ) :
    List.Perm (argsort keys) (List.range keys.length) := by
  have h := insertFold_pairwise_perm (fun k => keys.getD k 0)
    (List.range keys.length) [] List.Pairwise.nil (by simp)
    (List.pairwise_lt_range _)
  simpa [argsort] using h.2

theorem argsort_pairwise (keys : List ℚ) :
    (argsort keys).Pairwise (fun a b =>
      keys.getD a 0 < keys.getD b 0 ∨ (keys.getD a 0 = keys.getD b 0 ∧ a < b)) := by
  have h := insertFold_pairwise_perm (fun k => keys.getD k 0)
    (List.range keys.length) [] List.Pairwise.nil (by simp)
    (List.pairwise_lt_range _)
  simpa [argsort] using h.1

theorem argsort_length (keys : List ℚ) : (argsort keys).length = keys.length := by
  simpa using (argsort_perm keys).length_eq

theorem getD_map_abs (v : List ℚ) (a : Nat) :
    (v.map fun x => |x|).getD a 0 = |v.getD a 0| := by
  rcases lt_or_ge a v.length with h | h
  · rw [List.getD_eq_getElem _ _ (by simpa using h), List.getD_eq_getElem _ _ h,
      List.getElem_map]
  · rw [List.getD_eq_default _ _ (by simpa using h), List.getD_eq_default _ _ h]
    simp

/-! ## Claim theorems -/

/-- C1, counterexample: on the concrete one-row batch with raw
decision-function value 1/2, the AnomalyScore column holds 1 (the binary
predict output), not the raw value 1/2, so the column does not hold the
decision-function value. -/
theorem anomalyScore_not_raw_score_cex :
    ¬ (((anomalyScoreCol [(1:ℚ)/2]).getD 0 0 : ℚ) = [(1:ℚ)/2].getD 0 0) := by
  norm_num [anomalyScoreCol, ifPredict, List.getD]

/-- C1, amended: for every input batch and row, the AnomalyScore column
holds the model's binary predict output: −1 exactly when the row's raw
decision-function value is negative (the flagged rows), else 1; in
particular it only ever holds −1 or 1. -/
theorem anomalyScore_is_predict_output (scores : List ℚ) (i : Nat)
    (hi : i < scores.length) :
    ((anomalyScoreCol scores).getD i 0 = -1 ↔ scores.getD i 0 < 0) ∧
      ((anomalyScoreCol scores).getD i 0 = -1 ∨
        (anomalyScoreCol scores).getD i 0 = 1) := by
  have hlen : i < (anomalyScoreCol scores).length := by
    simpa [anomalyScoreCol, ifPredict] using hi
  rw [List.getD_eq_getElem _ _ hlen, List.getD_eq_getElem _ _ hi]
  simp only [anomalyScoreCol, ifPredict, List.getElem_map]
  by_cases h : scores[i] < 0
  · simp [h]
  · simp [h]

/-- Witness for `anomalyScore_is_predict_output` at the batch with raw
scores [−1, 2] and row 0. -/
theorem anomalyScore_is_predict_output_witness :
    ((anomalyScoreCol [-(1:ℚ), 2]).getD 0 0 = -1 ↔ [-(1:ℚ), 2].getD 0 0 < 0) ∧
      ((anomalyScoreCol [-(1:ℚ), 2]).getD 0 0 = -1 ∨
        (anomalyScoreCol [-(1:ℚ), 2]).getD 0 0 = 1) :=
  anomalyScore_is_predict_output [-(1:ℚ), 2] 0 (by decide)

/-- C4: the Probability Calibrator has no fallback for a degenerate
batch.  On a single-row batch (raw scores [5]) and on a constant two-row
batch the source expression divides zero by zero, which the embedding
records as `none` (floating-point NaN in the source), not a defined
fallback value. -/
theorem fraudProbability_constant_scores_undefined :
    fraudProbability [(5:ℚ)] = none ∧ fraudProbability [(3:ℚ), 3] = none := by
  constructor
  · simp [fraudProbability, scoreMin, scoreMax]
  · simp [fraudProbability, scoreMin, scoreMax]

/-- C6, counterexample: for the row with absolute contributions [1, 1]
and N = 2, the code's top list (line 68) is [1, 0] — the reversal of the
stable ascending argsort breaks the tie by DESCENDING feature order —
while the spec's tie-break by ascending feature order
(`specTopIndices`) gives [0, 1]. -/
theorem topIndices_tie_order_cex :
    topIndices [(1:ℚ), 1] 2 = [1, 0] ∧ specTopIndices [(1:ℚ), 1] 2 = [0, 1] ∧
      topIndices [(1:ℚ), 1] 2 ≠ specTopIndices [(1:ℚ), 1] 2 := by
  refine ⟨by decide, by decide, by decide⟩

/-- C6, amended: the top-N list is the first N entries of the feature
indices sorted in descending order of absolute contribution, with ties
between equal absolute contributions broken by DESCENDING (reverse)
original feature order. -/
theorem topIndices_sorted_desc (row_values : List ℚ) (top_n : Nat) :
    ∃ L : List Nat, List.Perm L (List.range row_values.length) ∧
      L.Pairwise (fun i j =>
        |row_values.getD j 0| < |row_values.getD i 0| ∨
          (|row_values.getD j 0| = |row_values.getD i 0| ∧ j < i)) ∧
      topIndices row_values top_n = L.take top_n := by
  refine ⟨(argsort (row_values.map fun x => |x|)).reverse, ?_, ?_, rfl⟩
  · refine (List.reverse_perm _).trans ?_
    have h := argsort_perm (row_values.map fun x => |x|)
    simpa using h
  · rw [List.pairwise_reverse]
    have h := argsort_pairwise (row_values.map fun x => |x|)
    refine h.imp ?_
    intro a b hab
    rw [getD_map_abs, getD_map_abs] at hab
    rcases hab with h1 | ⟨h1, h2⟩
    · exact Or.inl h1
    · exact Or.inr ⟨h1, h2⟩

/-- C7, counterexample: a row with a single nonzero contribution still
gets 3 narrative bullets (zero-contribution features are not excluded),
while the claim predicts min(3, 1) = 1. -/
theorem bullet_count_cex :
    (bulletsFor [(5:ℚ), 0, 0, 0, 0, 0, 0, 0, 0, 0, 0, 0]
        [0, 0, 0, 0, 0, 0, 0, 0, 0, 0, 0, 0] 3).length = 3 ∧
      min 3 ([(5:ℚ), 0, 0, 0, 0, 0, 0, 0, 0, 0, 0, 0].countP
        (fun x => decide (x ≠ 0))) = 1 ∧ (3 : Nat) ≠ 1 := by
  refine ⟨by decide, by decide, by decide⟩

/-- C7, amended: for every flagged row the number of narrative bullets
equals min(N, number of features in the row) — with the pipeline's 12
features and default N = 3, always exactly 3 — regardless of how many
contributions are nonzero. -/
theorem bullet_count_eq_min (row_values row_data : List ℚ) (top_n : Nat) :
    (bulletsFor row_values row_data top_n).length = min top_n row_values.length := by
  rw [bulletsFor, List.length_map, topIndices, List.length_take,
    List.length_reverse, argsort_length, List.length_map]

/-- C5, code bug: in the two-row batch with raw scores [1, −1] only batch
row 1 is flagged, so `generate_explanations` receives one SHAP row; the
narrative produced for that flagged row is built from the raw values of
BATCH ROW 0 (position 0 of `X_raw`, here with TransactionAmount 200000,
severity "very high"), not from flagged row 1's own raw values (amount
10, severity "moderate"). -/
theorem explanation_severity_misindexed :
    fraudIndices [(1:ℚ), -1] = [1] ∧
      generate_explanations [[(1:ℚ), 0, 0, 0, 0, 0, 0, 0, 0, 0, 0, 0]]
          [[200000, 0, 0, 0, 0, 0, 0, 0, 0, 0, 500, 30],
           [10, 0, 0, 0, 0, 0, 0, 0, 0, 0, 999999, 99999]] 3 =
        [explanationFor [(1:ℚ), 0, 0, 0, 0, 0, 0, 0, 0, 0, 0, 0]
          [200000, 0, 0, 0, 0, 0, 0, 0, 0, 0, 500, 30] 3] ∧
      risk_flags "TransactionAmount" 200000 = some "very high" ∧
      risk_flags "TransactionAmount" 10 = some "moderate" := by
  refine ⟨by decide, rfl, by decide, by decide⟩

theorem map_prob_getD (scores : List ℚ) (k : Nat) (hk : k < scores.length) :
    (scores.map fun s =>
        1 - (s - scoreMin scores) / (scoreMax scores - scoreMin scores)).getD k 0 =
      1 - (scores.getD k 0 - scoreMin scores) / (scoreMax scores - scoreMin scores) := by
  rw [List.getD_eq_getElem _ _ (by simpa using hk), List.getD_eq_getElem _ _ hk,
    List.getElem_map]

/-- C2, counterexample: in the batch with raw scores [−2, −1, 1] the
AnomalyScore column is [−1, −1, 1]; row 1 holds the column's minimum
value −1, yet its FraudProbability 2/3 is smaller than row 0's 1, so a
row holding the minimum AnomalyScore need not have the largest
FraudProbability. -/
theorem minAnomalyScore_prob_cex :
    ¬ (∀ i j : Nat, i < 3 → j < 3 →
        (∀ k : Nat, k < 3 →
          (anomalyScoreCol [-(2:ℚ), -1, 1]).getD i 0 ≤
            (anomalyScoreCol [-(2:ℚ), -1, 1]).getD k 0) →
        ∀ probs : List ℚ, fraudProbability [-(2:ℚ), -1, 1] = some probs →
          probs.getD j 0 ≤ probs.getD i 0) := by
  intro hcl
  have hmin : scoreMin [-(2:ℚ), -1, 1] = -2 := by norm_num [scoreMin, min_def]
  have hmax : scoreMax [-(2:ℚ), -1, 1] = 1 := by norm_num [scoreMax, max_def]
  have hp : fraudProbability [-(2:ℚ), -1, 1] = some [1, 2/3, 0] := by
    simp only [fraudProbability, hmin, hmax]
    norm_num
  have h := hcl 1 0 (by norm_num) (by norm_num) (by decide) [1, 2/3, 0] hp
  norm_num at h

/-- C2, amended: FraudProbability is monotonically decreasing in the raw
decision-function score (not in the AnomalyScore column): on every
non-degenerate batch, a row with a smaller-or-equal raw score has a
greater-or-equal FraudProbability, so a row attaining the minimum raw
score has FraudProbability ≥ that of every other row. -/
theorem fraudProbability_antitone (scores : List ℚ)
    (h : scoreMin scores < scoreMax scores) (probs : List ℚ)
    (hp : fraudProbability scores = some probs) (i j : Nat)
    (hi : i < scores.length) (hj : j < scores.length)
    (hij : scores.getD i 0 ≤ scores.getD j 0) :
    probs.getD j 0 ≤ probs.getD i 0 := by
  have hne : scoreMax scores ≠ scoreMin scores := ne_of_gt h
  simp only [fraudProbability, if_neg hne, Option.some.injEq] at hp
  subst hp
  rw [map_prob_getD _ _ hi, map_prob_getD _ _ hj]
  have hd : 0 < scoreMax scores - scoreMin scores := sub_pos.mpr h
  have hdiv : (scores.getD i 0 - scoreMin scores) / (scoreMax scores - scoreMin scores) ≤
      (scores.getD j 0 - scoreMin scores) / (scoreMax scores - scoreMin scores) :=
    (div_le_div_iff_of_pos_right hd).mpr (sub_le_sub_right hij _)
  linarith

/-- Witness for `fraudProbability_antitone` on the batch with raw scores
[0, 1], rows 0 and 1. -/
theorem fraudProbability_antitone_witness :
    scoreMin [(0:ℚ), 1] < scoreMax [(0:ℚ), 1] ∧
      fraudProbability [(0:ℚ), 1] = some [1, 0] ∧
      ([(1:ℚ), 0].getD 1 0 ≤ [(1:ℚ), 0].getD 0 0) := by
  have hmin : scoreMin [(0:ℚ), 1] = 0 := by norm_num [scoreMin, min_def]
  have hmax : scoreMax [(0:ℚ), 1] = 1 := by norm_num [scoreMax, max_def]
  have h : scoreMin [(0:ℚ), 1] < scoreMax [(0:ℚ), 1] := by
    rw [hmin, hmax]; norm_num
  have hp : fraudProbability [(0:ℚ), 1] = some [1, 0] := by
    simp only [fraudProbability, hmin, hmax]
    norm_num
  exact ⟨h, hp, fraudProbability_antitone [(0:ℚ), 1] h [1, 0] hp 0 1
    (by decide) (by decide) (by norm_num)⟩

/-- C3: on every batch with a non-degenerate raw-score range, each row's
FraudProbability equals 1 minus the min-max normalisation of its raw
score over the batch's score range, and lies in [0, 1]. -/
theorem fraudProbability_minmax_in_unit (scores : List ℚ)
    (h : scoreMin scores < scoreMax scores) (i : Nat) (hi : i < scores.length) :
    ∃ probs : List ℚ, fraudProbability scores = some probs ∧
      probs.getD i 0 =
        1 - (scores.getD i 0 - scoreMin scores) / (scoreMax scores - scoreMin scores) ∧
      0 ≤ probs.getD i 0 ∧ probs.getD i 0 ≤ 1 := by
  have hne : scoreMax scores ≠ scoreMin scores := ne_of_gt h
  have hmem : scores.getD i 0 ∈ scores := by
    rw [List.getD_eq_getElem _ _ hi]
    exact List.getElem_mem hi
  have h1 : scoreMin scores ≤ scores.getD i 0 := scoreMin_le _ _ hmem
  have h2 : scores.getD i 0 ≤ scoreMax scores := le_scoreMax _ _ hmem
  have hd : 0 < scoreMax scores - scoreMin scores := sub_pos.mpr h
  have q1 : 0 ≤ (scores.getD i 0 - scoreMin scores) / (scoreMax scores - scoreMin scores) :=
    div_nonneg (by linarith) (le_of_lt hd)
  have q2 : (scores.getD i 0 - scoreMin scores) / (scoreMax scores - scoreMin scores) ≤ 1 := by
    rw [div_le_one hd]
    linarith
  refine ⟨_, by simp only [fraudProbability, if_neg hne], map_prob_getD _ _ hi, ?_, ?_⟩
  · rw [map_prob_getD _ _ hi]
    linarith
  · rw [map_prob_getD _ _ hi]
    linarith

/-- Witness for `fraudProbability_minmax_in_unit` on the batch with raw
scores [0, 1] at row 0. -/
theorem fraudProbability_minmax_in_unit_witness :
    scoreMin [(0:ℚ), 1] < scoreMax [(0:ℚ), 1] ∧
      ∃ probs : List ℚ, fraudProbability [(0:ℚ), 1] = some probs ∧
        probs.getD 0 0 = 1 - ([(0:ℚ), 1].getD 0 0 - scoreMin [(0:ℚ), 1]) /
          (scoreMax [(0:ℚ), 1] - scoreMin [(0:ℚ), 1]) ∧
        0 ≤ probs.getD 0 0 ∧ probs.getD 0 0 ≤ 1 := by
  have h : scoreMin [(0:ℚ), 1] < scoreMax [(0:ℚ), 1] := by
    norm_num [scoreMin, scoreMax, min_def, max_def]
  exact ⟨h, fraudProbability_minmax_in_unit [(0:ℚ), 1] h 0 (by decide)⟩

/-- C10: on every batch with a non-degenerate raw-score range, the
calibrated probabilities attain their bounds exactly: a row whose raw
score is the batch maximum gets FraudProbability exactly 0, and a row
whose raw score is the batch minimum gets exactly 1. -/
theorem extreme_scores_attain_bounds (scores : List ℚ)
    (h : scoreMin scores < scoreMax scores) (i : Nat) (hi : i < scores.length) :
    ∃ probs : List ℚ, fraudProbability scores = some probs ∧
      (scores.getD i 0 = scoreMax scores → probs.getD i 0 = 0) ∧
      (scores.getD i 0 = scoreMin scores → probs.getD i 0 = 1) := by
  have hne : scoreMax scores ≠ scoreMin scores := ne_of_gt h
  have hdne : scoreMax scores - scoreMin scores ≠ 0 :=
    sub_ne_zero.mpr hne
  refine ⟨scores.map (fun s =>
      1 - (s - scoreMin scores) / (scoreMax scores - scoreMin scores)),
    by simp only [fraudProbability, if_neg hne], ?_, ?_⟩
  · intro hmaxi
    rw [map_prob_getD _ _ hi, hmaxi, div_self hdne]
    norm_num
  · intro hmini
    rw [map_prob_getD _ _ hi, hmini, sub_self, zero_div]
    norm_num

/-- Witness for `extreme_scores_attain_bounds` on the batch with raw
scores [0, 1] at row 1 (the maximum-score row). -/
theorem extreme_scores_attain_bounds_witness :
    scoreMin [(0:ℚ), 1] < scoreMax [(0:ℚ), 1] ∧
      ∃ probs : List ℚ, fraudProbability [(0:ℚ), 1] = some probs ∧
        ([(0:ℚ), 1].getD 1 0 = scoreMax [(0:ℚ), 1] → probs.getD 1 0 = 0) ∧
        ([(0:ℚ), 1].getD 1 0 = scoreMin [(0:ℚ), 1] → probs.getD 1 0 = 1) := by
  have h : scoreMin [(0:ℚ), 1] < scoreMax [(0:ℚ), 1] := by
    norm_num [scoreMin, scoreMax, min_def, max_def]
  exact ⟨h, extreme_scores_attain_bounds [(0:ℚ), 1] h 1 (by decide)⟩

/-- C8: for every batch, a row's IsFraud entry is 1 exactly when the
Scorer's own outlier decision (`predict`, −1) flags that row, and every
non-flagged row's FraudExplanation entry is the empty string, whatever
explanation strings were produced for the flagged rows. -/
theorem isFraud_iff_flagged (scores : List ℚ) (expls : List String) (i : Nat)
    (hi : i < scores.length) :
    ((isFraudCol scores).getD i 0 = 1 ↔ (ifPredict scores).getD i 1 = -1) ∧
      ((isFraudCol scores).getD i 0 = 0 →
        (fraudExplanationCol scores expls).getD i "missing" = "") := by
  have hlen1 : i < (isFraudCol scores).length := by
    simpa [isFraudCol, anomalyScoreCol, ifPredict] using hi
  have hlen2 : i < (ifPredict scores).length := by
    simpa [ifPredict] using hi
  have hlen3 : i < (fraudExplanationCol scores expls).length := by
    simpa [fraudExplanationCol] using hi
  constructor
  · rw [List.getD_eq_getElem _ _ hlen1, List.getD_eq_getElem _ _ hlen2]
    simp only [isFraudCol, anomalyScoreCol, ifPredict, List.getElem_map]
    by_cases h : scores[i] < 0 <;> simp [h]
  · intro h0
    rw [List.getD_eq_getElem _ _ hlen3]
    simp only [fraudExplanationCol, List.getElem_map, List.getElem_range]
    rw [if_neg]
    intro hcont
    have hmem : i ∈ fraudIndices scores := by simpa using hcont
    unfold fraudIndices at hmem
    have hp := (List.mem_filter.mp hmem).2
    rw [beq_iff_eq] at hp
    rw [h0] at hp
    exact absurd hp (by decide)

/-- Witness for `isFraud_iff_flagged` on the batch with raw scores
[1, −1] (row 1 flagged), explanation list ["e"], at non-flagged row 0. -/
theorem isFraud_iff_flagged_witness :
    ((isFraudCol [(1:ℚ), -1]).getD 0 0 = 1 ↔ (ifPredict [(1:ℚ), -1]).getD 0 1 = -1) ∧
      ((isFraudCol [(1:ℚ), -1]).getD 0 0 = 0 →
        (fraudExplanationCol [(1:ℚ), -1] ["e"]).getD 0 "missing" = "") :=
  isFraud_iff_flagged [(1:ℚ), -1] ["e"] 0 (by decide)

/-- C9: on every input table from which the required column
AccountBalance is absent, the Feature Builder (`preprocess`) fails with
`DataError`, and the whole `predict` run fails with the same error, so
no partial result table is produced. -/
theorem missing_column_dataError (t : InputTable)
    (decision_function : List (List ℚ) → List ℚ)
    (shapValues : List (List ℚ) → List (List ℚ))
    (h : List.lookup "AccountBalance" t = none) :
    preprocess t = Except.error PipelineError.DataError ∧
      predict t decision_function shapValues = Except.error PipelineError.DataError := by
  have hpre : preprocess t = Except.error PipelineError.DataError := by
    unfold preprocess
    refine exceptBindAll _ _ (fun td => ?_)
    refine exceptBindAll _ _ (fun ptd => ?_)
    refine exceptBindAll _ _ (fun tt => ?_)
    refine exceptBindAll _ _ (fun ch => ?_)
    refine exceptBindAll _ _ (fun loc => ?_)
    refine exceptBindAll _ _ (fun dev => ?_)
    refine exceptBindAll _ _ (fun mer => ?_)
    refine exceptBindAll _ _ (fun occ => ?_)
    refine exceptBindAll _ _ (fun amt => ?_)
    refine exceptBindAll _ _ (fun age => ?_)
    refine exceptBindAll _ _ (fun dur => ?_)
    refine exceptBindAll _ _ (fun login => ?_)
    simp only [getCol, h]
    rfl
  refine ⟨hpre, ?_⟩
  unfold predict
  rw [hpre]
  rfl

/-- Witness for `missing_column_dataError` on the empty input table. -/
theorem missing_column_dataError_witness :
    List.lookup "AccountBalance" ([] : InputTable) = none ∧
      preprocess [] = Except.error PipelineError.DataError ∧
      predict [] (fun _ => []) (fun _ => []) = Except.error PipelineError.DataError := by
  have h : List.lookup "AccountBalance" ([] : InputTable) = none := rfl
  exact ⟨h, (missing_column_dataError [] (fun _ => []) (fun _ => []) h).1,
    (missing_column_dataError [] (fun _ => []) (fun _ => []) h).2⟩
